import Mathlib

/-!
Verification of the iceoryx shared-memory transport core against its
specification.  The definitions below are a shallow embedding of the C++
sources: machine integers become `Nat`/`Int` with explicit reductions
modulo `2 ^ w` where overflow matters, atomics become plain fields
(claims are settled on the sequential semantics of the operations), and
fallible operations return `Except` or tagged result types.

Components whose implementation files are not part of the source tree
(only their headers, callers or tests are) are modelled from the
specification; each such definition carries a doc comment starting with
`Modelled from the spec:`.
-/

namespace Iceoryx

/-! ## Machine-integer helpers

`sigval.sival_int` is a C `int` (32-bit, two's complement).  We model a
`sigval` payload as the mathematical integer it holds, together with the
two conversions the code performs: `static_cast<int>` of a `uint32_t`
and `static_cast<uint32_t>` of an `int`. -/

def UINT8_MOD : Nat := 2 ^ 8
def UINT24_MOD : Nat := 2 ^ 24
def UINT32_MOD : Nat := 2 ^ 32

/-- `static_cast<int>(u)` for a `uint32_t` value `u`: two's-complement wrap. -/
def int32OfUInt32 (u : Nat) : Int :=
  if u % UINT32_MOD < 2 ^ 31 then ((u % UINT32_MOD : Nat) : Int)
  else ((u % UINT32_MOD : Nat) : Int) - (UINT32_MOD : Int)

/-- `static_cast<uint32_t>(v)` for an `int` value `v`: reduction mod `2^32`. -/
def uint32OfInt32 (v : Int) : Nat :=
  (v % (UINT32_MOD : Int)).toNat

theorem uint32OfInt32_int32OfUInt32 (u : Nat) (hu : u < UINT32_MOD) :
    uint32OfInt32 (int32OfUInt32 u) = u := by
  unfold uint32OfInt32 int32OfUInt32 UINT32_MOD at *
  split <;> omega

/-! ## Timer subsystem (`iceoryx_utils/source/posix_wrapper/timer.cpp`)

The `(index, descriptor)` packing used for the POSIX timer callback
dispatch. `index` is a `uint8_t`, `descriptor` a `uint32_t` of which the
low 24 bits travel in the sigval. -/

namespace Timer
namespace OsTimerCallbackHandle

/-- Modelled from the spec: the constant `MAX_DESCRIPTOR_VALUE` is declared
in the timer header, which is not among the sources; the code packs the
descriptor into the 24 bits above the index (`(temp >> 8u) & 0xFFFFFFu`)
and asserts `descriptor < MAX_DESCRIPTOR_VALUE` before packing, so the
bound is the 24-bit field capacity. -/
def MAX_DESCRIPTOR_VALUE : Nat := UINT24_MOD

/-- `uint32_t temp = (descriptor << 8) | static_cast<uint32_t>(index);`
`sigvalData.sival_int = static_cast<int>(temp);` -/
def indexAndDescriptorToSigval (index descriptor : Nat) : Int :=
  let temp : Nat := (((descriptor % UINT32_MOD) <<< 8) % UINT32_MOD) ||| (index % UINT8_MOD)
  int32OfUInt32 temp

/-- `static_cast<uint8_t>(0xFF & intVal.sival_int)` -/
def sigvalToIndex (intVal : Int) : Nat :=
  (uint32OfInt32 intVal) &&& 0xFF

/-- `uint32_t temp = static_cast<uint32_t>(intVal.sival_int);`
`return (temp >> 8u) & 0xFFFFFFu;` -/
def sigvalToDescriptor (intVal : Int) : Nat :=
  ((uint32OfInt32 intVal) >>> 8) &&& 0xFFFFFF

end OsTimerCallbackHandle
end Timer

/-- Disjoint or: when the low `k` bits of the left operand are clear, the
bitwise or is an addition. -/
theorem shiftLeft_lor_eq_add (a b k : Nat) (hb : b < 2 ^ k) :
    (a <<< k) ||| b = 2 ^ k * a + b := by
  apply Nat.eq_of_testBit_eq
  intro j
  rw [Nat.testBit_mul_pow_two_add a hb j, Nat.testBit_lor, Nat.testBit_shiftLeft]
  by_cases h : j < k
  · have : ¬ (j ≥ k) := by omega
    simp [this, h]
  · have hjk : j ≥ k := by omega
    have hbj : b.testBit j = false := by
      apply Nat.testBit_lt_two_pow
      calc b < 2 ^ k := hb
        _ ≤ 2 ^ j := Nat.pow_le_pow_right (by omega) hjk
    simp [hjk, hbj, h]

theorem pack_eq (index descriptor : Nat) (hi : index < UINT8_MOD)
    (hd : descriptor < UINT24_MOD) :
    Timer.OsTimerCallbackHandle.indexAndDescriptorToSigval index descriptor =
      int32OfUInt32 (2 ^ 8 * descriptor + index) := by
  unfold Timer.OsTimerCallbackHandle.indexAndDescriptorToSigval
  have h1 : descriptor % UINT32_MOD = descriptor := by
    apply Nat.mod_eq_of_lt; unfold UINT24_MOD UINT32_MOD at *; omega
  have h2 : index % UINT8_MOD = index := Nat.mod_eq_of_lt hi
  have h3 : descriptor <<< 8 = descriptor * 2 ^ 8 := Nat.shiftLeft_eq _ _
  have h4 : descriptor * 2 ^ 8 % UINT32_MOD = descriptor * 2 ^ 8 := by
    apply Nat.mod_eq_of_lt; unfold UINT24_MOD UINT32_MOD at *; omega
  simp only [h1, h2, h3, h4]
  rw [show descriptor * 2 ^ 8 = descriptor <<< 8 from (Nat.shiftLeft_eq _ _).symm,
    shiftLeft_lor_eq_add _ _ _ (by unfold UINT8_MOD at hi; exact hi)]

/-- Claim C9: packing an `(index, descriptor)` pair into a sigval and
unpacking it round-trips: for every `index < 256` and every
`descriptor < MAX_DESCRIPTOR_VALUE`, `sigvalToIndex` recovers the index and
`sigvalToDescriptor` recovers the descriptor. -/
theorem sigval_pack_unpack_roundtrip (index descriptor : Nat)
    (hi : index < 256) (hd : descriptor < Timer.OsTimerCallbackHandle.MAX_DESCRIPTOR_VALUE) :
    Timer.OsTimerCallbackHandle.sigvalToIndex
        (Timer.OsTimerCallbackHandle.indexAndDescriptorToSigval index descriptor) = index ∧
    Timer.OsTimerCallbackHandle.sigvalToDescriptor
        (Timer.OsTimerCallbackHandle.indexAndDescriptorToSigval index descriptor) = descriptor := by
  have hi8 : index < UINT8_MOD := by unfold UINT8_MOD; omega
  have hd24 : descriptor < UINT24_MOD :=
    hd
  rw [pack_eq index descriptor hi8 hd24]
  have hlt : 2 ^ 8 * descriptor + index < UINT32_MOD := by
    unfold UINT24_MOD at hd24; unfold UINT32_MOD; omega
  unfold Timer.OsTimerCallbackHandle.sigvalToIndex
    Timer.OsTimerCallbackHandle.sigvalToDescriptor
  rw [uint32OfInt32_int32OfUInt32 _ hlt]
  constructor
  · rw [show (0xFF : Nat) = 2 ^ 8 - 1 by norm_num, Nat.and_pow_two_sub_one_eq_mod]
    omega
  · rw [Nat.shiftRight_eq_div_pow,
      show (0xFFFFFF : Nat) = 2 ^ 24 - 1 by norm_num, Nat.and_pow_two_sub_one_eq_mod]
    unfold UINT24_MOD at hd24
    omega

/-- Concrete instance of the sigval round-trip at `index = 7`,
`descriptor = 123456`. -/
theorem sigval_pack_unpack_roundtrip_witness :
    Timer.OsTimerCallbackHandle.sigvalToIndex
        (Timer.OsTimerCallbackHandle.indexAndDescriptorToSigval 7 123456) = 7 ∧
    Timer.OsTimerCallbackHandle.sigvalToDescriptor
        (Timer.OsTimerCallbackHandle.indexAndDescriptorToSigval 7 123456) = 123456 :=
  sigval_pack_unpack_roundtrip 7 123456 (by norm_num)
    (by unfold Timer.OsTimerCallbackHandle.MAX_DESCRIPTOR_VALUE UINT24_MOD; norm_num)

/-! ### Callback dispatch (`Timer::OsTimer::callbackHelper`)

A callback-handle pool slot, as read by the dispatch path.  The pool
`s_callbackHandlePool` is modelled as a total map from indices to slots;
`m_timerIsSet` models `m_timer != nullptr`.  Locks and atomics of the
original are elided: the claim is settled on the sequential semantics of
one dispatch. -/

structure Timer.OsTimerCallbackHandle where
  m_descriptor : Nat
  m_inUse : Bool
  m_isTimerActive : Bool
  m_timerIsSet : Bool

/-- `Timer::OsTimer::callbackHelper(sigval data)`: returns `true` exactly
when the dispatch reaches `m_timer->executeCallback()`. -/
def Timer.OsTimer.callbackHelper (pool : Nat → Timer.OsTimerCallbackHandle)
    (data : Int) : Bool :=
  let index := Timer.OsTimerCallbackHandle.sigvalToIndex data
  let descriptor := Timer.OsTimerCallbackHandle.sigvalToDescriptor data
  if Timer.OsTimerCallbackHandle.MAX_DESCRIPTOR_VALUE ≤ index then
    false
  else
    let callbackHandle := pool index
    if descriptor ≠ callbackHandle.m_descriptor then
      false
    else if callbackHandle.m_inUse = false then
      false
    else if descriptor ≠ callbackHandle.m_descriptor then
      false
    else if callbackHandle.m_isTimerActive = false then
      false
    else if callbackHandle.m_timerIsSet then
      true
    else
      false

/-- Claim C4: a dispatch whose sigval carries a descriptor different from
the one currently stored in the pool slot at its index, or whose slot is no
longer in use (the owning timer was destroyed), never reaches the user
callback. -/
theorem callbackHelper_stale_no_invoke (pool : Nat → Timer.OsTimerCallbackHandle)
    (data : Int)
    (h : Timer.OsTimerCallbackHandle.sigvalToDescriptor data ≠
           (pool (Timer.OsTimerCallbackHandle.sigvalToIndex data)).m_descriptor ∨
         (pool (Timer.OsTimerCallbackHandle.sigvalToIndex data)).m_inUse = false) :
    Timer.OsTimer.callbackHelper pool data = false := by
  rcases h with h | h <;>
    simp [Timer.OsTimer.callbackHelper, h]

/-- Concrete instance: a dispatch into a pool whose every slot is out of
use executes no callback. -/
theorem callbackHelper_stale_no_invoke_witness :
    ((fun _ : Nat => (⟨5, false, true, true⟩ : Timer.OsTimerCallbackHandle))
        (Timer.OsTimerCallbackHandle.sigvalToIndex 0)).m_inUse = false ∧
    Timer.OsTimer.callbackHelper
        (fun _ : Nat => (⟨5, false, true, true⟩ : Timer.OsTimerCallbackHandle)) 0 = false :=
  ⟨rfl, callbackHelper_stale_no_invoke _ 0 (Or.inr rfl)⟩

/-! ### Timer façade (`Timer::start`, `stop`, `restart`, ...)

The `Timer` class holds an `optional<OsTimer>`; every public operation
first checks `m_osTimer.has_value()` and fails with
`TIMER_NOT_INITIALIZED` otherwise.  The underlying POSIX calls are driven
by an outcome oracle (`OsCallOutcome`), and each operation also returns
the list of OS timer calls it performed. -/

inductive TimerError
  | NO_ERROR
  | TIMER_NOT_INITIALIZED
  | NO_VALID_CALLBACK
  | KERNEL_ALLOC_FAILED
  | INVALID_ARGUMENTS
  | ALLOC_MEM_FAILED
  | NO_PERMISSION
  | INVALID_POINTER
  | INTERNAL_LOGIC_ERROR
  | TIMEOUT_IS_ZERO
  deriving DecidableEq, Repr

inductive RunMode
  | ONCE
  | PERIODIC
  deriving DecidableEq, Repr

/-- Modelled from the spec: `TimerType` is declared in the timer header,
which is not among the sources; its value does not influence any control
flow in `timer.cpp`. -/
inductive TimerType
  | SOFT_TIMER
  | HARD_TIMER
  deriving DecidableEq, Repr

/-- An OS timer call performed by an operation (its trace). -/
inductive OsOp
  | timer_settime (valueNs intervalNs : Nat)
  | timer_gettime
  | timer_getoverrun
  deriving DecidableEq, Repr

/-- Outcomes of the underlying POSIX calls, an input of the embedding:
`some errno` means the call returns `-1` with that `errno`. -/
structure OsCallOutcome where
  settimeErrno : Option Nat
  gettimeErrno : Option Nat
  getoverrunErrno : Option Nat
  remainingNs : Nat
  overrunCount : Nat

def EAGAIN : Nat := 11
def EINVAL : Nat := 22
def ENOMEM : Nat := 12
def EPERM : Nat := 1
def EFAULT : Nat := 14

/-- `Timer::createErrorFromErrno` -/
def Timer.createErrorFromErrno (errnum : Nat) : TimerError :=
  if errnum = EAGAIN then .KERNEL_ALLOC_FAILED
  else if errnum = EINVAL then .INVALID_ARGUMENTS
  else if errnum = ENOMEM then .ALLOC_MEM_FAILED
  else if errnum = EPERM then .NO_PERMISSION
  else if errnum = EFAULT then .INVALID_POINTER
  else .INTERNAL_LOGIC_ERROR

/-- The state of a constructed `Timer::OsTimer`: its wait duration and the
`m_isTimerActive` flag of its callback-handle pool slot. -/
structure Timer.OsTimer where
  m_timeToWaitNs : Nat
  m_isTimerActive : Bool

/-- `Timer::OsTimer::start`: arm the timer via `timer_settime`; on
success mark the slot active. -/
def Timer.OsTimer.start (os : Timer.OsTimer) (runMode : RunMode) (_t : TimerType)
    (oc : OsCallOutcome) : Except TimerError Unit × Timer.OsTimer × List OsOp :=
  let intervalNs := match runMode with
    | .PERIODIC => os.m_timeToWaitNs
    | .ONCE => 0
  match oc.settimeErrno with
  | some e => (.error (Timer.createErrorFromErrno e), os,
      [.timer_settime os.m_timeToWaitNs intervalNs])
  | none => (.ok (), { os with m_isTimerActive := true },
      [.timer_settime os.m_timeToWaitNs intervalNs])

/-- `Timer::OsTimer::stop`: exchange `m_isTimerActive` with `false`; if it
was not active, succeed without any OS call, otherwise disarm via
`timer_settime` with a zero interval. -/
def Timer.OsTimer.stop (os : Timer.OsTimer) (oc : OsCallOutcome) :
    Except TimerError Unit × Timer.OsTimer × List OsOp :=
  let wasActive := os.m_isTimerActive
  let os2 : Timer.OsTimer := { os with m_isTimerActive := false }
  if wasActive = false then
    (.ok (), os2, [])
  else
    match oc.settimeErrno with
    | some e => (.error (Timer.createErrorFromErrno e), os2, [.timer_settime 0 0])
    | none => (.ok (), os2, [.timer_settime 0 0])

/-- `Timer::OsTimer::timeUntilExpiration`: `timer_gettime`; a zero
remaining value marks the slot inactive. -/
def Timer.OsTimer.timeUntilExpiration (os : Timer.OsTimer) (oc : OsCallOutcome) :
    Except TimerError Nat × Timer.OsTimer × List OsOp :=
  match oc.gettimeErrno with
  | some e => (.error (Timer.createErrorFromErrno e), os, [.timer_gettime])
  | none =>
    if oc.remainingNs = 0 then
      (.ok 0, { os with m_isTimerActive := false }, [.timer_gettime])
    else
      (.ok oc.remainingNs, os, [.timer_gettime])

/-- `Timer::OsTimer::getOverruns`: `timer_getoverrun`. -/
def Timer.OsTimer.getOverruns (os : Timer.OsTimer) (oc : OsCallOutcome) :
    Except TimerError Nat × Timer.OsTimer × List OsOp :=
  match oc.getoverrunErrno with
  | some e => (.error (Timer.createErrorFromErrno e), os, [.timer_getoverrun])
  | none => (.ok oc.overrunCount, os, [.timer_getoverrun])

/-- `Timer::OsTimer::restart`: `timeUntilExpiration`, then set the new
wait duration, `stop` if active, then `start`. -/
def Timer.OsTimer.restart (os : Timer.OsTimer) (timeToWaitNs : Nat)
    (runMode : RunMode) (tt : TimerType) (oc : OsCallOutcome) :
    Except TimerError Unit × Timer.OsTimer × List OsOp :=
  let (gettimeResult, os1, tr1) := os.timeUntilExpiration oc
  match gettimeResult with
  | .error e => (.error e, os1, tr1)
  | .ok _ =>
    let os2 : Timer.OsTimer := { os1 with m_timeToWaitNs := timeToWaitNs }
    if os2.m_isTimerActive then
      let (stopResult, os3, tr2) := os2.stop oc
      match stopResult with
      | .error e => (.error e, os3, tr1 ++ tr2)
      | .ok _ =>
        let (startResult, os4, tr3) := os3.start runMode tt oc
        (startResult, os4, tr1 ++ tr2 ++ tr3)
    else
      let (startResult, os3, tr3) := os2.start runMode tt oc
      (startResult, os3, tr1 ++ tr3)

/-- The `Timer` façade: wait duration, the optional `OsTimer`, and the
stored construction error. -/
structure Timer where
  m_timeToWaitNs : Nat
  m_osTimer : Option Timer.OsTimer
  m_errorValue : TimerError

/-- `Timer::start` -/
def Timer.start (t : Timer) (runMode : RunMode) (tt : TimerType)
    (oc : OsCallOutcome) : Except TimerError Unit × Timer × List OsOp :=
  match t.m_osTimer with
  | none => (.error .TIMER_NOT_INITIALIZED, t, [])
  | some os =>
    let (r, os2, tr) := os.start runMode tt oc
    (r, { t with m_osTimer := some os2 }, tr)

/-- `Timer::stop` -/
def Timer.stop (t : Timer) (oc : OsCallOutcome) :
    Except TimerError Unit × Timer × List OsOp :=
  match t.m_osTimer with
  | none => (.error .TIMER_NOT_INITIALIZED, t, [])
  | some os =>
    let (r, os2, tr) := os.stop oc
    (r, { t with m_osTimer := some os2 }, tr)

/-- `Timer::restart`: the zero-duration check comes before the
initialization check. -/
def Timer.restart (t : Timer) (timeToWaitNs : Nat) (runMode : RunMode)
    (tt : TimerType) (oc : OsCallOutcome) :
    Except TimerError Unit × Timer × List OsOp :=
  if timeToWaitNs = 0 then
    (.error .TIMEOUT_IS_ZERO, t, [])
  else
    match t.m_osTimer with
    | none => (.error .TIMER_NOT_INITIALIZED, t, [])
    | some os =>
      let (r, os2, tr) := os.restart timeToWaitNs runMode tt oc
      (r, { t with m_osTimer := some os2 }, tr)

/-- `Timer::timeUntilExpiration` -/
def Timer.timeUntilExpiration (t : Timer) (oc : OsCallOutcome) :
    Except TimerError Nat × Timer × List OsOp :=
  match t.m_osTimer with
  | none => (.error .TIMER_NOT_INITIALIZED, t, [])
  | some os =>
    let (r, os2, tr) := os.timeUntilExpiration oc
    (r, { t with m_osTimer := some os2 }, tr)

/-- `Timer::getOverruns` -/
def Timer.getOverruns (t : Timer) (oc : OsCallOutcome) :
    Except TimerError Nat × Timer × List OsOp :=
  match t.m_osTimer with
  | none => (.error .TIMER_NOT_INITIALIZED, t, [])
  | some os =>
    let (r, os2, tr) := os.getOverruns oc
    (r, { t with m_osTimer := some os2 }, tr)

/-- Claim C10: on a `Timer` without an underlying OS timer, `start`,
`stop`, `restart` (with a non-zero duration), `timeUntilExpiration` and
`getOverruns` all return `TIMER_NOT_INITIALIZED` and perform no OS timer
call; `restart` with a zero duration returns `TIMEOUT_IS_ZERO` before the
initialization check, likewise without any OS call. -/
theorem timer_uninitialized_ops (t : Timer) (runMode : RunMode) (tt : TimerType)
    (oc : OsCallOutcome) (d : Nat) (h : t.m_osTimer = none) (hd : d ≠ 0) :
    Timer.start t runMode tt oc = (.error .TIMER_NOT_INITIALIZED, t, []) ∧
    Timer.stop t oc = (.error .TIMER_NOT_INITIALIZED, t, []) ∧
    Timer.restart t d runMode tt oc = (.error .TIMER_NOT_INITIALIZED, t, []) ∧
    Timer.timeUntilExpiration t oc = (.error .TIMER_NOT_INITIALIZED, t, []) ∧
    Timer.getOverruns t oc = (.error .TIMER_NOT_INITIALIZED, t, []) ∧
    Timer.restart t 0 runMode tt oc = (.error .TIMEOUT_IS_ZERO, t, []) := by
  refine ⟨?_, ?_, ?_, ?_, ?_, ?_⟩ <;>
    simp [Timer.start, Timer.stop, Timer.restart, Timer.timeUntilExpiration,
      Timer.getOverruns, h, hd]

/-- Concrete instance: a `Timer` constructed with the duration-only
constructor (no OS timer) rejects every operation. -/
theorem timer_uninitialized_ops_witness :
    ((⟨1000, none, .NO_ERROR⟩ : Timer).m_osTimer = none ∧ (5 : Nat) ≠ 0) ∧
    Timer.restart ⟨1000, none, .NO_ERROR⟩ 5 .ONCE .SOFT_TIMER ⟨none, none, none, 0, 0⟩ =
      (.error .TIMER_NOT_INITIALIZED, ⟨1000, none, .NO_ERROR⟩, []) :=
  ⟨⟨rfl, by decide⟩,
    (timer_uninitialized_ops ⟨1000, none, .NO_ERROR⟩ .ONCE .SOFT_TIMER
      ⟨none, none, none, 0, 0⟩ 5 rfl (by decide)).2.2.1⟩

/-! ## MePoo: relative pointers, chunk metadata, memory pools -/

/-- Modelled from the spec: a relative pointer is a (segment-id, byte-offset)
pair resolved through a per-process registry of mapped segments; it stores no
absolute address and no pointee data (`relative_pointer.hpp` is not among the
sources, only its uses). The type parameter records the pointee type. -/
structure RelativePointer (T : Type) where
  segment_id : Nat
  offset : Nat
  deriving DecidableEq, Repr

/-- Modelled from the spec: a MemPool is `(blockSize, blockCount, baseOffset)`
plus an index-based free list over its contiguous block array (the MemPool
implementation files are not among the sources). -/
structure MemPool where
  m_chunkSize : Nat
  m_numberOfChunks : Nat
  baseOffset : Nat
  freeIndices : List Nat
  deriving DecidableEq, Repr

/-- `MemPool::getChunk`: pop one index from the free list, `none` when empty. -/
def MemPool.getChunk (p : MemPool) : Option (Nat × MemPool) :=
  match p.freeIndices with
  | [] => none
  | i :: rest => some (i, { p with freeIndices := rest })

/-- Marker for the pointee of the ChunkHeader's back-pointer.
`RelativePointer` stores only (segment-id, offset), never pointee data, so the
mutual reference between `ChunkHeader` and `ChunkManagement` is broken with
this name. -/
inductive ChunkManagementRecord

/-- Modelled from the spec: the fixed-layout record at the start of a block —
chunk total size, user payload size/alignment/offset, origin id, sequence
number, timestamp slot, and a relative back-pointer to the ChunkManagement
record (`chunk_header.hpp` is not among the sources). -/
structure ChunkHeader where
  chunkSize : Nat
  userPayloadSize : Nat
  userPayloadAlignment : Nat
  userPayloadOffset : Nat
  originId : Nat
  sequenceNumber : Nat
  timestampNs : Nat
  chunkManagement : RelativePointer ChunkManagementRecord

/-- `ChunkManagement` (`chunk_management.hpp`): a relative pointer to the
ChunkHeader, the atomic reference counter (a `uint64_t`, here a `Nat`; claims
are settled on the sequential semantics), and relative pointers to the
originating MemPool and to the ChunkManagement-pool the record lives in, in
the field order of the header. -/
structure ChunkManagement where
  m_chunkHeader : RelativePointer ChunkHeader
  m_referenceCounter : Nat
  m_mempool : RelativePointer MemPool
  m_chunkManagementPool : RelativePointer MemPool

/-- `ChunkManagement::ChunkManagement(chunkHeader, mempool,
chunkManagementPool)`: the constructor body (in `chunk_management.cpp`, not
among the sources) sets the three pointer members; `m_referenceCounter` keeps
its in-class initializer `{1U}` from the header, which no constructor
argument overrides. -/
def ChunkManagement.construct (chunkHeader : RelativePointer ChunkHeader)
    (mempool chunkManagementPool : RelativePointer MemPool) : ChunkManagement :=
  { m_chunkHeader := chunkHeader
    m_referenceCounter := 1
    m_mempool := mempool
    m_chunkManagementPool := chunkManagementPool }

/-- Modelled from the spec: `incrementRefCount()` is a relaxed atomic
increment (the SharedChunk release path is not among the sources). -/
def ChunkManagement.incrementRefCount (c : ChunkManagement) : ChunkManagement :=
  { c with m_referenceCounter := c.m_referenceCounter + 1 }

/-- A block returned to a pool by the release path. -/
inductive ReleaseEvent
  | freePayloadChunk
  | freeChunkManagement
  deriving DecidableEq, Repr

/-- Modelled from the spec: `decrementRefCount()` — release-ordered decrement;
on transition to zero, return the payload block to its origin MemPool and
then the ChunkManagement block to its origin ChunkManagement-pool, in that
order, destroying the record (the SharedChunk release path is not among the
sources; the fences of the original are elided).  Returns the record after
the decrement (`none` once destroyed) together with the ordered list of
blocks returned. -/
def ChunkManagement.decrementRefCount (c : ChunkManagement) :
    Option ChunkManagement × List ReleaseEvent :=
  let newCount := c.m_referenceCounter - 1
  if newCount = 0 then
    (none, [.freePayloadChunk, .freeChunkManagement])
  else
    (some { c with m_referenceCounter := newCount }, [])

/-- Claim C1: a newly constructed ChunkManagement record has its reference
counter equal to exactly 1 — the value is fixed by construction, before any
`incrementRefCount` or `decrementRefCount` is performed. -/
theorem chunkManagement_initial_refcount
    (chunkHeader : RelativePointer ChunkHeader)
    (mempool chunkManagementPool : RelativePointer MemPool) :
    (ChunkManagement.construct chunkHeader mempool chunkManagementPool).m_referenceCounter = 1 :=
  rfl

/-- Claim C2: when `decrementRefCount` makes the counter reach zero (it was 1),
the release path returns first the payload block and then the ChunkManagement
block, destroying the record last; at any other count at least 1, no block is
returned — the zero transition is the unique release point. -/
theorem decrementRefCount_release_order (c : ChunkManagement)
    (h : 1 ≤ c.m_referenceCounter) :
    c.decrementRefCount =
      if c.m_referenceCounter = 1 then
        (none, [ReleaseEvent.freePayloadChunk, ReleaseEvent.freeChunkManagement])
      else
        (some { c with m_referenceCounter := c.m_referenceCounter - 1 }, []) := by
  unfold ChunkManagement.decrementRefCount
  rcases Nat.eq_or_lt_of_le h with h1 | h1
  · simp [← h1]
  · have h2 : ¬ (c.m_referenceCounter - 1 = 0) := by omega
    have h3 : ¬ (c.m_referenceCounter = 1) := by omega
    simp [h2, h3]

/-- Concrete instance: the last holder's decrement frees payload first, then
the management record. -/
theorem decrementRefCount_release_order_witness :
    1 ≤ (ChunkManagement.construct ⟨1, 64⟩ ⟨1, 0⟩ ⟨1, 32⟩).m_referenceCounter ∧
    (ChunkManagement.construct ⟨1, 64⟩ ⟨1, 0⟩ ⟨1, 32⟩).decrementRefCount =
      (none, [ReleaseEvent.freePayloadChunk, ReleaseEvent.freeChunkManagement]) :=
  ⟨Nat.le_refl 1, by
    rw [decrementRefCount_release_order (ChunkManagement.construct ⟨1, 64⟩ ⟨1, 0⟩ ⟨1, 32⟩)
      (Nat.le_refl 1)]
    rfl⟩

/-- The components of a ChunkManagement record, in declaration order. -/
def ChunkManagement.toTuple (c : ChunkManagement) :
    RelativePointer ChunkHeader × Nat × RelativePointer MemPool × RelativePointer MemPool :=
  (c.m_chunkHeader, c.m_referenceCounter, c.m_mempool, c.m_chunkManagementPool)

/-- Rebuild a ChunkManagement record from its components. -/
def ChunkManagement.ofTuple
    (t : RelativePointer ChunkHeader × Nat × RelativePointer MemPool × RelativePointer MemPool) :
    ChunkManagement :=
  ⟨t.1, t.2.1, t.2.2.1, t.2.2.2⟩

/-- Claim C3: a ChunkManagement record consists of exactly a relative pointer
to its ChunkHeader, an atomic reference count, a relative pointer to the
originating MemPool and a relative pointer to the ChunkManagement-pool — the
record and the quadruple determine each other, and each pointer component has
`RelativePointer` type (a (segment-id, offset) pair, never an absolute
address). -/
theorem chunkManagement_exact_fields :
    (∀ c : ChunkManagement, ChunkManagement.ofTuple (ChunkManagement.toTuple c) = c) ∧
    (∀ t : RelativePointer ChunkHeader × Nat × RelativePointer MemPool × RelativePointer MemPool,
      ChunkManagement.toTuple (ChunkManagement.ofTuple t) = t) :=
  ⟨fun _ => rfl, fun _ => rfl⟩

/-! ### Multi-pool allocation (`getChunk(userPayloadSize, userPayloadAlign)`) -/

/-- Modelled from the spec: `sizeof(Header)` for the fixed-layout ChunkHeader. -/
def SIZEOF_CHUNK_HEADER : Nat := 32

/-- Modelled from the spec: the alignment the header start already provides. -/
def ALIGNOF_CHUNK_HEADER : Nat := 8

/-- Modelled from the spec: worst-case padding inserted between the header
and a `userPayloadAlign`-aligned payload start. -/
def padForAlign (userPayloadAlign : Nat) : Nat :=
  userPayloadAlign - min userPayloadAlign ALIGNOF_CHUNK_HEADER

/-- Modelled from the spec: the block capacity a pool must provide to satisfy
a `getChunk(userPayloadSize, userPayloadAlign)` request:
`sizeof(Header) + padForAlign + userPayloadSize`. -/
def requiredChunkSize (userPayloadSize userPayloadAlign : Nat) : Nat :=
  SIZEOF_CHUNK_HEADER + padForAlign userPayloadAlign + userPayloadSize

/-- Result of a multi-pool `getChunk`: the index of the pool used and the
block index inside it, or `OUT_OF_CHUNKS`. -/
inductive GetChunkResult
  | chunk (poolIndex blockIndex : Nat)
  | OUT_OF_CHUNKS
  deriving DecidableEq, Repr

/-- Placeholder pool used by `List.getD` beyond the pool list; its free list
is empty. -/
def poolDefault : MemPool := ⟨0, 0, 0, []⟩

/-- Modelled from the spec: walk the pools, which are laid out in increasing
block size, and take the first (hence smallest) one whose block capacity
satisfies the required size; if that pool is exhausted fail with
`OUT_OF_CHUNKS` — never fall back to a larger pool (the multi-pool allocator
implementation is not among the sources). -/
def getChunkFromPools : List MemPool → Nat → GetChunkResult × List MemPool
  | [], _ => (.OUT_OF_CHUNKS, [])
  | p :: rest, required =>
    if required ≤ p.m_chunkSize then
      match p.getChunk with
      | none => (.OUT_OF_CHUNKS, p :: rest)
      | some (i, p2) => (.chunk 0 i, p2 :: rest)
    else
      match getChunkFromPools rest required with
      | (.chunk k i, rest2) => (.chunk (k + 1) i, p :: rest2)
      | (.OUT_OF_CHUNKS, rest2) => (.OUT_OF_CHUNKS, p :: rest2)

/-- Modelled from the spec: `getChunk(userPayloadSize, userPayloadAlign)` of
the multi-pool allocator. -/
def mePooGetChunk (pools : List MemPool) (userPayloadSize userPayloadAlign : Nat) :
    GetChunkResult × List MemPool :=
  getChunkFromPools pools (requiredChunkSize userPayloadSize userPayloadAlign)

/-- `getChunkFromPools` is determined by the first fitting pool alone: its
head free index on success, `OUT_OF_CHUNKS` when it is exhausted (or when no
pool fits), never touching a later pool. -/
theorem getChunkFromPools_fst (pools : List MemPool) (required : Nat) :
    (getChunkFromPools pools required).1 =
      match (pools.getD (pools.findIdx fun p => decide (required ≤ p.m_chunkSize))
          poolDefault).freeIndices with
      | [] => GetChunkResult.OUT_OF_CHUNKS
      | i :: _ =>
        GetChunkResult.chunk
          (pools.findIdx fun p => decide (required ≤ p.m_chunkSize)) i := by
  induction pools with
  | nil => rfl
  | cons p rest ih =>
    by_cases hfit : required ≤ p.m_chunkSize
    · have h1 : (decide (required ≤ p.m_chunkSize)) = true := by simp [hfit]
      cases hfree : p.freeIndices with
      | nil =>
        simp [getChunkFromPools, hfit, MemPool.getChunk, List.findIdx_cons, h1, hfree]
      | cons i t =>
        simp [getChunkFromPools, hfit, MemPool.getChunk, List.findIdx_cons, h1, hfree]
    · have h1 : (decide (required ≤ p.m_chunkSize)) = false := by simp [hfit]
      rcases hres : getChunkFromPools rest required with ⟨r, rest2⟩
      rw [hres] at ih
      cases hfree : (rest.getD (rest.findIdx fun p => decide (required ≤ p.m_chunkSize))
          poolDefault).freeIndices with
      | nil =>
        rw [hfree] at ih
        cases r with
        | chunk k i => exact absurd ih (by simp)
        | OUT_OF_CHUNKS =>
          simp only [getChunkFromPools, if_neg hfit, hres, List.findIdx_cons, h1,
            cond_false, List.getD_cons_succ, hfree]
      | cons j t =>
        rw [hfree] at ih
        cases r with
        | chunk k i =>
          simp only [getChunkFromPools, if_neg hfit, hres, List.findIdx_cons, h1,
            cond_false, List.getD_cons_succ, hfree]
          have hk : GetChunkResult.chunk k i =
              GetChunkResult.chunk (rest.findIdx fun p => decide (required ≤ p.m_chunkSize)) j :=
            ih
          cases hk
          rfl
        | OUT_OF_CHUNKS => exact absurd ih (by simp)

/-- Among sorted pools, the pool at the first fitting index has minimal block
size among all fitting pools. -/
theorem findIdx_pool_min (pools : List MemPool) (required : Nat)
    (hsorted : pools.Pairwise (fun a b => a.m_chunkSize ≤ b.m_chunkSize))
    (j : Nat) (hj : j < pools.length)
    (hfit : required ≤ (pools.get ⟨j, hj⟩).m_chunkSize) :
    (pools.getD (pools.findIdx fun p => decide (required ≤ p.m_chunkSize))
        poolDefault).m_chunkSize ≤ (pools.get ⟨j, hj⟩).m_chunkSize := by
  induction pools generalizing j with
  | nil => exact absurd hj (by simp)
  | cons p rest ih =>
    by_cases hfitp : required ≤ p.m_chunkSize
    · have h1 : (decide (required ≤ p.m_chunkSize)) = true := by simp [hfitp]
      rw [List.findIdx_cons, h1, cond_true, List.getD_cons_zero]
      cases j with
      | zero => exact Nat.le_refl _
      | succ j2 =>
        have hj2 : j2 < rest.length := by
          simpa using hj
        have := (List.pairwise_cons.mp hsorted).1 (rest.get ⟨j2, hj2⟩) (rest.get_mem _ _)
        simpa using this
    · have h1 : (decide (required ≤ p.m_chunkSize)) = false := by simp [hfitp]
      rw [List.findIdx_cons, h1, cond_false, List.getD_cons_succ]
      cases j with
      | zero =>
        exact absurd hfit (by simpa using hfitp)
      | succ j2 =>
        have hj2 : j2 < rest.length := by simpa using hj
        have hfit2 : required ≤ (rest.get ⟨j2, hj2⟩).m_chunkSize := by
          simpa using hfit
        have := ih (List.pairwise_cons.mp hsorted).2 j2 hj2 hfit2
        simpa using this

/-- Claim C5: for every `getChunk(userPayloadSize, userPayloadAlign)` request
on pools of increasing block size, the result is decided by the first — and
hence smallest — pool whose block capacity satisfies
`sizeof(Header) + padForAlign + userPayloadSize`: a block of that pool on
success, `OUT_OF_CHUNKS` when that pool is exhausted; a larger pool is never
used as a fallback, and the chosen pool's block size is minimal among all
fitting pools. -/
theorem mePoo_getChunk_smallest_no_fallback (pools : List MemPool)
    (userPayloadSize userPayloadAlign : Nat)
    (hsorted : pools.Pairwise (fun a b => a.m_chunkSize ≤ b.m_chunkSize)) :
    ((mePooGetChunk pools userPayloadSize userPayloadAlign).1 =
      match (pools.getD (pools.findIdx fun p =>
          decide (requiredChunkSize userPayloadSize userPayloadAlign ≤ p.m_chunkSize))
          poolDefault).freeIndices with
      | [] => GetChunkResult.OUT_OF_CHUNKS
      | i :: _ =>
        GetChunkResult.chunk
          (pools.findIdx fun p =>
            decide (requiredChunkSize userPayloadSize userPayloadAlign ≤ p.m_chunkSize)) i) ∧
    (∀ j, (hj : j < pools.length) →
      requiredChunkSize userPayloadSize userPayloadAlign ≤ (pools.get ⟨j, hj⟩).m_chunkSize →
      (pools.getD (pools.findIdx fun p =>
          decide (requiredChunkSize userPayloadSize userPayloadAlign ≤ p.m_chunkSize))
          poolDefault).m_chunkSize ≤ (pools.get ⟨j, hj⟩).m_chunkSize) :=
  ⟨getChunkFromPools_fst pools _,
    fun j hj hfit => findIdx_pool_min pools _ hsorted j hj hfit⟩

/-- Concrete instance: with a 128-byte pool exhausted and a 256-byte pool
full of free blocks, a request that fits the 128-byte pool fails with
`OUT_OF_CHUNKS` instead of falling back to the larger pool. -/
theorem mePoo_getChunk_smallest_no_fallback_witness :
    ([⟨128, 2, 0, []⟩, ⟨256, 2, 256, [0, 1]⟩] : List MemPool).Pairwise
      (fun a b => a.m_chunkSize ≤ b.m_chunkSize) ∧
    (mePooGetChunk [⟨128, 2, 0, []⟩, ⟨256, 2, 256, [0, 1]⟩] 64 8).1 =
      GetChunkResult.OUT_OF_CHUNKS :=
  ⟨by simp [List.pairwise_cons], by
    rw [(mePoo_getChunk_smallest_no_fallback [⟨128, 2, 0, []⟩, ⟨256, 2, 256, [0, 1]⟩] 64 8
      (by simp [List.pairwise_cons])).1]
    rfl⟩

/-! ## Delivery queue (lock-free SPMC queue per subscriber)

The queue implementation files are not among the sources; the queue is
modelled from the spec as a bounded FIFO of relative pointers to
ChunkManagement records, with the overflow policy of the owning
subscriber port.  Claims are settled on its sequential semantics (the
spec's single-producer FIFO ordering). -/

inductive OverflowPolicy
  | DISCARD_OLDEST
  | REJECT_NEW
  deriving DecidableEq, Repr

/-- Modelled from the spec: a bounded array of relative pointers to
ChunkManagement records; the list front is the oldest element. -/
structure DeliveryQueue where
  capacity : Nat
  policy : OverflowPolicy
  elements : List (RelativePointer ChunkManagement)

inductive PushResult
  | pushed (q : DeliveryQueue)
  | pushedEvictedOldest (evicted : RelativePointer ChunkManagement) (q : DeliveryQueue)
  | Full

/-- Modelled from the spec: `tryPush(ptr)` — when capacity is reached,
return `Full` under REJECT_NEW; under DISCARD_OLDEST evict the oldest
element, return it to the caller and push the new element. -/
def DeliveryQueue.tryPush (q : DeliveryQueue)
    (ptr : RelativePointer ChunkManagement) : PushResult :=
  if q.elements.length < q.capacity then
    .pushed { q with elements := q.elements ++ [ptr] }
  else
    match q.policy with
    | .REJECT_NEW => .Full
    | .DISCARD_OLDEST =>
      match q.elements with
      | [] => .Full
      | oldest :: rest => .pushedEvictedOldest oldest { q with elements := rest ++ [ptr] }

/-- Modelled from the spec: `tryPop()` — wait-free pop of the oldest
element. -/
def DeliveryQueue.tryPop (q : DeliveryQueue) :
    Option (RelativePointer ChunkManagement × DeliveryQueue) :=
  match q.elements with
  | [] => none
  | x :: rest => some (x, { q with elements := rest })

/-- Claim C6: on a well-formed queue (at most `capacity` elements, positive
capacity) with policy DISCARD_OLDEST, `tryPush` never returns `Full`: below
capacity it pushes, and at capacity it evicts exactly the oldest element,
returns it to the caller, and pushes the new element at the back. -/
theorem tryPush_discard_oldest_never_full (q : DeliveryQueue)
    (ptr : RelativePointer ChunkManagement)
    (hpol : q.policy = .DISCARD_OLDEST)
    (hwf : q.elements.length ≤ q.capacity) (hcap : 0 < q.capacity) :
    q.tryPush ptr ≠ .Full ∧
    q.tryPush ptr =
      (if q.elements.length < q.capacity then
        .pushed { q with elements := q.elements ++ [ptr] }
      else
        .pushedEvictedOldest (q.elements.headD ptr)
          { q with elements := q.elements.tail ++ [ptr] }) := by
  unfold DeliveryQueue.tryPush
  rw [hpol]
  by_cases hlt : q.elements.length < q.capacity
  · simp [hlt]
  · have hfull : q.elements.length = q.capacity := by omega
    cases helems : q.elements with
    | nil =>
      exact absurd hfull (by simp [helems]; omega)
    | cons oldest rest =>
      have hlen : ¬ rest.length + 1 < q.capacity := by
        have := hlt
        rw [helems] at this
        simpa using this
      simp [helems, hlen]

/-- Concrete instance: pushing into a full two-element DISCARD_OLDEST queue
evicts the oldest element rather than reporting `Full`. -/
theorem tryPush_discard_oldest_never_full_witness :
    ((⟨2, .DISCARD_OLDEST, [⟨1, 0⟩, ⟨1, 64⟩]⟩ : DeliveryQueue).policy =
        OverflowPolicy.DISCARD_OLDEST ∧
      (⟨2, .DISCARD_OLDEST, [⟨1, 0⟩, ⟨1, 64⟩]⟩ : DeliveryQueue).elements.length ≤ 2 ∧
      (0 : Nat) < 2) ∧
    (⟨2, .DISCARD_OLDEST, [⟨1, 0⟩, ⟨1, 64⟩]⟩ : DeliveryQueue).tryPush ⟨1, 128⟩ ≠
      PushResult.Full :=
  ⟨⟨rfl, by decide, by decide⟩,
    (tryPush_discard_oldest_never_full ⟨2, .DISCARD_OLDEST, [⟨1, 0⟩, ⟨1, 64⟩]⟩ ⟨1, 128⟩
      rfl (by decide) (by decide)).1⟩

/-! ### Per-publisher ordering (claim C7)

A single publisher delivers into one subscriber's queue; the subscriber
takes.  Whatever the interleaving of sends and takes and whatever the
overflow policy, the take sequence is a sublist of the send sequence:
elements may be discarded but never reordered. -/

inductive PortEvent
  | send (c : RelativePointer ChunkManagement)
  | take

/-- The subscriber side: its delivery queue and the chunks taken so far,
in take order. -/
structure SubscriberView where
  queue : DeliveryQueue
  taken : List (RelativePointer ChunkManagement)

/-- Modelled from the spec: `sendChunk` step seen by one connected
subscriber — `tryPush` into its delivery queue; under REJECT_NEW a `Full`
push drops the element for this subscriber (the refcount increment is
rolled back), under DISCARD_OLDEST the evicted element is released. -/
def SubscriberView.deliver (s : SubscriberView)
    (c : RelativePointer ChunkManagement) : SubscriberView :=
  match s.queue.tryPush c with
  | .pushed q2 => { s with queue := q2 }
  | .pushedEvictedOldest _ q2 => { s with queue := q2 }
  | .Full => s

/-- Modelled from the spec: `take()` pops one entry from the delivery
queue. -/
def SubscriberView.takeOne (s : SubscriberView) : SubscriberView :=
  match s.queue.tryPop with
  | none => s
  | some (c, q2) => ⟨q2, s.taken ++ [c]⟩

/-- Run a trace of sends and takes against one subscriber. -/
def runEvents (s : SubscriberView) : List PortEvent → SubscriberView
  | [] => s
  | .send c :: es => runEvents (s.deliver c) es
  | .take :: es => runEvents s.takeOne es

/-- The chunks a trace sends, in send order. -/
def sentOf : List PortEvent → List (RelativePointer ChunkManagement)
  | [] => []
  | .send c :: es => c :: sentOf es
  | .take :: es => sentOf es

/-- `tryPush` either pushes at the back, evicts the head and pushes at the
back, or reports `Full` leaving the queue untouched. -/
theorem tryPush_cases (q : DeliveryQueue) (ptr : RelativePointer ChunkManagement) :
    q.tryPush ptr = .pushed { q with elements := q.elements ++ [ptr] } ∨
    (∃ oldest rest, q.elements = oldest :: rest ∧
      q.tryPush ptr = .pushedEvictedOldest oldest { q with elements := rest ++ [ptr] }) ∨
    q.tryPush ptr = .Full := by
  unfold DeliveryQueue.tryPush
  by_cases hlt : q.elements.length < q.capacity
  · exact Or.inl (by rw [if_pos hlt])
  · rw [if_neg hlt]
    cases hpol : q.policy with
    | REJECT_NEW => exact Or.inr (Or.inr rfl)
    | DISCARD_OLDEST =>
      cases helems : q.elements with
      | nil => exact Or.inr (Or.inr rfl)
      | cons oldest rest =>
        exact Or.inr (Or.inl ⟨oldest, rest, rfl, rfl⟩)

theorem deliver_sublist (s : SubscriberView) (c : RelativePointer ChunkManagement) :
    List.Sublist ((s.deliver c).taken ++ (s.deliver c).queue.elements)
      ((s.taken ++ s.queue.elements) ++ [c]) := by
  unfold SubscriberView.deliver
  rcases tryPush_cases s.queue c with h | ⟨oldest, rest, helems, h⟩ | h
  · rw [h, List.append_assoc]
  · rw [h, helems, List.append_assoc]
    exact List.Sublist.append_left
      (List.Sublist.append (List.sublist_cons_self oldest rest) (List.Sublist.refl [c])) _
  · rw [h]
    exact List.sublist_append_left _ _

theorem takeOne_eq (s : SubscriberView) :
    s.takeOne.taken ++ s.takeOne.queue.elements = s.taken ++ s.queue.elements := by
  unfold SubscriberView.takeOne DeliveryQueue.tryPop
  cases helems : s.queue.elements with
  | nil => rw [helems]
  | cons x rest => simp [helems]

theorem runEvents_sublist (events : List PortEvent) (s : SubscriberView)
    (log : List (RelativePointer ChunkManagement))
    (h : List.Sublist (s.taken ++ s.queue.elements) log) :
    List.Sublist ((runEvents s events).taken ++ (runEvents s events).queue.elements)
      (log ++ sentOf events) := by
  induction events generalizing s log with
  | nil => simpa [runEvents, sentOf] using h
  | cons e es ih =>
    cases e with
    | send c =>
      have hstep : List.Sublist ((s.deliver c).taken ++ (s.deliver c).queue.elements)
          (log ++ [c]) :=
        (deliver_sublist s c).trans (List.Sublist.append h (List.Sublist.refl [c]))
      have := ih (s.deliver c) (log ++ [c]) hstep
      simpa [runEvents, sentOf, List.append_assoc] using this
    | take =>
      have hstep : List.Sublist (s.takeOne.taken ++ s.takeOne.queue.elements) log := by
        rw [takeOne_eq]; exact h
      have := ih s.takeOne log hstep
      simpa [runEvents, sentOf] using this

/-- Claim C7: for a subscriber connected throughout, whatever the queue
capacity, overflow policy and interleaving of sends and takes, the take
sequence is a sublist of the send sequence: the overflow policy may discard
elements but never reorders them — in particular, if `send a` precedes
`send b` and both are observed, `a` is observed before `b`. -/
theorem per_publisher_order (capacity : Nat) (policy : OverflowPolicy)
    (events : List PortEvent) :
    List.Sublist (runEvents ⟨⟨capacity, policy, []⟩, []⟩ events).taken (sentOf events) := by
  have h := runEvents_sublist events ⟨⟨capacity, policy, []⟩, []⟩ []
    (by simp)
  simp only [List.nil_append] at h
  exact (List.sublist_append_left _ _).trans h

/-! ### Late-join history (claim C8) -/

/-- Modelled from the spec: the publisher's history ring after a sequence of
sends keeps the last `historyDepth` of them, in send order. -/
def historyAfterSends (historyDepth : Nat)
    (sent : List (RelativePointer ChunkManagement)) :
    List (RelativePointer ChunkManagement) :=
  sent.drop (sent.length - historyDepth)

/-- Modelled from the spec: `connectSubscriber` pushes up to
`requestedHistory` most recent history chunks into the new subscriber's
queue, in send order, truncated to the newer end. -/
def historyDelivery (historyDepth requestedHistory : Nat)
    (sent : List (RelativePointer ChunkManagement)) :
    List (RelativePointer ChunkManagement) :=
  let h := historyAfterSends historyDepth sent
  h.drop (h.length - requestedHistory)

/-- Modelled from the spec: a late-joining subscriber observes the history
first, then the live sends, never interleaved. -/
def lateJoinObservation (historyDepth requestedHistory : Nat)
    (sent newSends : List (RelativePointer ChunkManagement)) :
    List (RelativePointer ChunkManagement) :=
  historyDelivery historyDepth requestedHistory sent ++ newSends

/-- Claim C8: if a publisher with history depth at least `H` has sent the
chunks `sent` (`N` of them) and a subscriber then subscribes with requested
history `H`, it observes exactly `min N H` of the most recent sends, in send
order, before any newly sent chunk. -/
theorem late_join_history (historyDepth requestedHistory : Nat)
    (sent newSends : List (RelativePointer ChunkManagement))
    (hreq : requestedHistory ≤ historyDepth) :
    lateJoinObservation historyDepth requestedHistory sent newSends =
      sent.drop (sent.length - min sent.length requestedHistory) ++ newSends ∧
    (historyDelivery historyDepth requestedHistory sent).length =
      min sent.length requestedHistory := by
  unfold lateJoinObservation historyDelivery historyAfterSends
  constructor
  · simp only [List.length_drop, List.drop_drop]
    congr 2
    omega
  · simp only [List.length_drop, List.drop_drop]
    omega

/-- Concrete instance of scenario 5 of the spec: history depth 3, four
sends, requested history 3 — the subscriber observes the last three sends,
then the live one. -/
theorem late_join_history_witness :
    (3 : Nat) ≤ 3 ∧
    lateJoinObservation 3 3 [⟨1, 0⟩, ⟨1, 1⟩, ⟨1, 2⟩, ⟨1, 3⟩] [⟨1, 4⟩] =
      ([⟨1, 1⟩, ⟨1, 2⟩, ⟨1, 3⟩, ⟨1, 4⟩] :
        List (RelativePointer ChunkManagement)) :=
  ⟨Nat.le_refl 3, by
    rw [(late_join_history 3 3 [⟨1, 0⟩, ⟨1, 1⟩, ⟨1, 2⟩, ⟨1, 3⟩] [⟨1, 4⟩]
      (Nat.le_refl 3)).1]
    rfl⟩

end Iceoryx
